import Mathlib

/-
Verification of the reduction engine in `making_python_fast`
(`code/averaging.py`, `code/summing.py`, `code/summing_on_summing.py`).

The Python sources are embedded shallowly:

* Machine integers are `Int` (Python ints are unbounded, so no modular
  wrap is needed); Python's `float(x)/n` is modelled in `ℚ`, which is
  exact for the integer inputs at issue.
* A call that raises an uncaught Python exception is modelled with
  `Except PyErr`.
* The racy shared-`Manager`-dict accumulator of `summing.py` is modelled
  by a small-step machine (`summing.CStep`) in which each worker's
  `dicter["current_sum"] += elem` is split into its load and its store,
  so arbitrary cross-worker interleavings are represented.
-/

/-- Uncaught Python exceptions that the embedded functions can raise. -/
inductive PyErr where
  | stopIteration
  | zeroDivision
  | nameError
  deriving DecidableEq

/-- `for_loop_get_sum(listing)` — the sequential baseline reducer.  The same
function appears verbatim in `summing.py`, `summing_on_summing.py` and
`summing_with_db.py`: `summation = 0; for i in listing: summation += i`. -/
def for_loop_get_sum (listing : List Int) : Int :=
  listing.foldl (fun summ i => summ + i) 0

/-- Python's built-in `sum(listing)`: a left fold of `+` starting from `0`
(the documented semantics of the builtin). -/
def builtin_sum (listing : List Int) : Int :=
  listing.foldl (fun summ i => summ + i) 0

namespace averaging

/-- `averaging.py` lines 14-16: `def summation(elem,summ): summ += elem; return summ`. -/
def summation (elem summ : Int) : Int := summ + elem

/-- The `while next_elem:` loop of `averaging.py` lines 23-28.  State:
`next_elem` is the value most recently taken from the generator (Python's
`False` sentinel coincides with `0`, and `while next_elem:` tests
truthiness, i.e. nonzeroness), `rest` the elements the generator has not
yet yielded, `summ` the running total.  Each iteration synchronously runs
`summ = pool.apply_async(summation,args=(next_elem,summ,)).get()`; a
`StopIteration` from `next` sets `next_elem = False`, which ends the loop. -/
def chainFold : Int → List Int → Int → Int
  | next_elem, rest, summ =>
    if next_elem = 0 then summ
    else
      match rest with
      | [] => summation next_elem summ
      | y :: ys => chainFold y ys (summation next_elem summ)

/-- `averaging.py` lines 18-31, `get_average(listing)`.  The initial
`next_elem = next(get_elem)` (line 21) is outside any handler, so an empty
`listing` raises `StopIteration`.  Despite its name the function returns the
accumulated `summ` without dividing. -/
def get_average (listing : List Int) : Except PyErr Int :=
  match listing with
  | [] => .error .stopIteration
  | x :: xs => .ok (chainFold x xs 0)

/-- `averaging.py` lines 33-37, `for_loop_get_average(listing)`:
`float(summation)/len(listing)`, raising `ZeroDivisionError` on an empty
list.  The float division is modelled exactly in `ℚ`. -/
def for_loop_get_average (listing : List Int) : Except PyErr ℚ :=
  if listing.length = 0 then .error .zeroDivision
  else .ok ((for_loop_get_sum listing : ℚ) / (listing.length : ℚ))

end averaging

namespace summing

/-- The submission loop of `summing.py` lines 17-24 (identical in shape in
`averaging.py` and `summing_on_summing.py`): `while next_elem:` submits the
current element and advances, so the elements actually submitted to the pool
are the longest leading run of nonzero ("truthy") elements. -/
def submittedList : List Int → List Int
  | [] => []
  | x :: xs => if x = 0 then [] else x :: submittedList xs

/-- State of the shared `Manager` dict cell `dicter["current_sum"]` of
`summing.py` together with the workers operating on it:
`pending` holds submitted units whose `summation(elem,dicter)` has not yet
read the cell, `reading` holds units that have read the cell (element paired
with the value they read), `cell` is the current cell value. -/
structure CellState where
  pending : List Int
  reading : List (Int × Int)
  cell : Int
  deriving DecidableEq

/-- One scheduler step.  `summing.py` line 10, `dicter["current_sum"] += elem`,
is a read-modify-write: `load` is the worker's read of the cell (any pending
unit may fire, in any order), `store` writes back `read value + elem`,
overwriting whatever the cell holds now — the lost-update race. -/
inductive CStep : CellState → CellState → Prop
  | load (l1 : List Int) (e : Int) (l2 : List Int) (r : List (Int × Int)) (c : Int) :
      CStep ⟨l1 ++ e :: l2, r, c⟩ ⟨l1 ++ l2, (e, c) :: r, c⟩
  | store (p : List Int) (r1 : List (Int × Int)) (e v : Int) (r2 : List (Int × Int)) (c : Int) :
      CStep ⟨p, r1 ++ (e, v) :: r2, c⟩ ⟨p, r1 ++ r2, v + e⟩

/-- Scheduler reachability: any finite interleaving of worker steps. -/
def Reach : CellState → CellState → Prop := Relation.ReflTransGen CStep

/-- Every submitted unit has completed (nothing pending, nothing mid-increment). -/
def Settled (s : CellState) : Prop := s.pending = [] ∧ s.reading = []

/-- Cell state once the master loop of `get_sum` has submitted every unit:
the cell was initialised to `0` (`summing.py` line 14) and no worker has
stepped yet. -/
def initCell (submitted : List Int) : CellState := ⟨submitted, [], 0⟩

/-- `summing.py` lines 12-25, `get_sum(listing)`, as a relation from input to
possible returned values.  An empty `listing` raises `StopIteration` at the
unprotected `next_elem = next(get_elem)` (line 16).  Otherwise the master
fires-and-forgets one unit per element of the truthy leading run and then
returns `dicter["current_sum"]` with NO `pool.close()`/`pool.join()` before
the read, so the returned value is the cell of ANY machine state reachable
at that moment — settled or not. -/
def get_sum_may (listing : List Int) (r : Except PyErr Int) : Prop :=
  match listing with
  | [] => r = .error .stopIteration
  | x :: xs => ∃ s, Reach (initCell (submittedList (x :: xs))) s ∧ r = .ok s.cell

end summing

namespace sos

/-- The names bound at module scope in `summing_on_summing.py`: its imports
(lines 1-3) and its own `def`s.  Note `get_element` IS here and `generate`
is NOT. -/
def moduleNames : List String :=
  [ "Pool", "Manager", "time", "random",
    "get_element", "summation", "get_sum", "for_loop_get_sum",
    "get_listing", "get_sums", "time_comparison" ]

/-- `summing_on_summing.py` lines 9-11: `summation(elem,current_sum)` returns
`current_sum + elem`. -/
def summation (elem current_sum : Int) : Int := current_sum + elem

/-- The chained `while next_elem:` loop of `summing_on_summing.py`
lines 18-23, same shape as `averaging.chainFold`. -/
def chainFold : Int → List Int → Int → Int
  | next_elem, rest, current_sum =>
    if next_elem = 0 then current_sum
    else
      match rest with
      | [] => summation next_elem current_sum
      | y :: ys => chainFold y ys (summation next_elem current_sum)

/-- Assignment `dicter[list_size] = current_sum` on a dict modelled as an
association list: overwrite the key if present, else append. -/
def storeSet : List (Nat × Int) → Nat → Int → List (Nat × Int)
  | [], k, v => [(k, v)]
  | (k', v') :: rest, k, v =>
    if k' = k then (k, v) :: rest else (k', v') :: storeSet rest k v

/-- `summing_on_summing.py` lines 13-26, `get_sum(listing,dicter,list_size)`.
Its first action after `current_sum = 0` is line 15, `get_elem =
generate(listing)`; the module binds `get_element` but never `generate`
(see `moduleNames`), so name resolution fails and EVERY invocation raises
`NameError` before reading a single element.  The `then` branch below is the
body that would run if `generate` were bound: chained reduction of the
truthy leading run, then the keyed store write of line 26. -/
def get_sum (listing : List Int) (dicter : List (Nat × Int)) (list_size : Nat) :
    Except PyErr (List (Nat × Int)) :=
  if "generate" ∈ moduleNames then
    match listing with
    | [] => .error .stopIteration
    | x :: xs => .ok (storeSet dicter list_size (chainFold x xs 0))
  else .error .nameError

/-- `pool.apply_async(get_sum, ...)` with the result handle never retrieved
(`summing_on_summing.py` line 45): an exception raised inside the worker is
discarded; the shared dict reflects the job's write only if it succeeded. -/
def fire (r : Except PyErr (List (Nat × Int))) (dicter : List (Nat × Int)) :
    List (Nat × Int) :=
  match r with
  | .ok d => d
  | .error _ => dicter

/-- The `while next_list:` loop of `summing_on_summing.py` lines 44-49.
An empty list is falsy, ending the whole loop; `StopIteration` from the
job generator sets `next_list = False`, also ending it.  `get_sums` joins
the pool before returning, so all jobs have finished; since every `get_sum`
job faults before writing, the final store does not depend on the workers'
scheduling, and submission order is used. -/
def sumsLoop : List Int → Nat → List (List Int × Nat) → List (Nat × Int) → List (Nat × Int)
  | next_list, list_size, rest, dicter =>
    if next_list.isEmpty then dicter
    else
      let dicter' := fire (get_sum next_list dicter list_size) dicter
      match rest with
      | [] => dicter'
      | (l, k) :: more => sumsLoop l k more dicter'

/-- `summing_on_summing.py` lines 38-52, `get_sums`, abstracted over the
(sequence, key) jobs that `get_listing(sizes)` yields (the random contents
of each sequence are out of the engine's scope, spec §1).  The initial
`next_list,list_size = next(to_compute)` (line 40) is unprotected, so an
empty job list raises `StopIteration`.  Returns the shared keyed store
after `pool.close(); pool.join()`. -/
def get_sums (jobs : List (List Int × Nat)) : Except PyErr (List (Nat × Int)) :=
  match jobs with
  | [] => .error .stopIteration
  | (l, k) :: rest => .ok (sumsLoop l k rest [])

end sos

theorem foldl_add_shift (l : List Int) (a : Int) :
    l.foldl (fun summ i => summ + i) a = a + for_loop_get_sum l := by
  induction l generalizing a with
  | nil => simp [for_loop_get_sum]
  | cons x xs ih =>
    show xs.foldl _ (a + x) = a + for_loop_get_sum (x :: xs)
    rw [ih (a + x)]
    show a + x + for_loop_get_sum xs = a + xs.foldl _ (0 + x)
    rw [ih (0 + x)]
    ring

theorem for_loop_get_sum_cons (x : Int) (xs : List Int) :
    for_loop_get_sum (x :: xs) = x + for_loop_get_sum xs := by
  show xs.foldl _ (0 + x) = x + for_loop_get_sum xs
  rw [foldl_add_shift]
  ring

theorem chainFold_eq_sum (xs : List Int) (x : Int) (summ : Int)
    (hx : x ≠ 0) (hxs : ∀ y ∈ xs, y ≠ 0) :
    averaging.chainFold x xs summ = summ + for_loop_get_sum (x :: xs) := by
  induction xs generalizing x summ with
  | nil =>
    simp [averaging.chainFold, averaging.summation, hx, for_loop_get_sum_cons,
      for_loop_get_sum]
  | cons y ys ih =>
    have hy : y ≠ 0 := hxs y (by simp)
    have hys : ∀ z ∈ ys, z ≠ 0 := fun z hz => hxs z (by simp [hz])
    rw [averaging.chainFold, if_neg hx]
    show averaging.chainFold y ys (averaging.summation x summ) = _
    rw [ih y (averaging.summation x summ) hy hys]
    rw [for_loop_get_sum_cons x (y :: ys)]
    simp [averaging.summation]
    ring

theorem reach_pres {P : summing.CellState → Prop}
    (hP : ∀ s s', P s → summing.CStep s s' → P s')
    {a b : summing.CellState} (h : summing.Reach a b) (ha : P a) : P b := by
  induction h with
  | refl => exact ha
  | tail h1 h2 ih => exact hP _ _ ih h2

theorem serial_reach (subs : List Int) (c : Int) :
    summing.Reach ⟨subs, [], c⟩ ⟨[], [], subs.foldl (fun summ i => summ + i) c⟩ := by
  induction subs generalizing c with
  | nil => exact Relation.ReflTransGen.refl
  | cons x xs ih =>
    have h1 : summing.CStep ⟨x :: xs, [], c⟩ ⟨xs, [(x, c)], c⟩ := by
      simpa using summing.CStep.load [] x xs [] c
    have h2 : summing.CStep ⟨xs, [(x, c)], c⟩ ⟨xs, [], c + x⟩ := by
      simpa using summing.CStep.store xs [] x c [] c
    exact Relation.ReflTransGen.head h1 (Relation.ReflTransGen.head h2 (ih (c + x)))

theorem lost_update_reach :
    summing.Reach (summing.initCell (summing.submittedList [1, 2])) ⟨[], [], 2⟩ := by
  have h1 : summing.CStep ⟨[1, 2], [], 0⟩ ⟨[2], [(1, 0)], 0⟩ := by
    simpa using summing.CStep.load [] 1 [2] [] 0
  have h2 : summing.CStep ⟨[2], [(1, 0)], 0⟩ ⟨[], [(2, 0), (1, 0)], 0⟩ := by
    simpa using summing.CStep.load [] 2 [] [(1, 0)] 0
  have h3 : summing.CStep ⟨[], [(2, 0), (1, 0)], 0⟩ ⟨[], [(2, 0)], 1⟩ := by
    simpa using summing.CStep.store [] [(2, 0)] 1 0 [] 0
  have h4 : summing.CStep ⟨[], [(2, 0)], 1⟩ ⟨[], [], 2⟩ := by
    simpa using summing.CStep.store [] [] 2 0 [] 1
  show summing.Reach ⟨[1, 2], [], 0⟩ ⟨[], [], 2⟩
  exact Relation.ReflTransGen.head h1 (Relation.ReflTransGen.head h2
    (Relation.ReflTransGen.head h3 (Relation.ReflTransGen.head h4 Relation.ReflTransGen.refl)))

theorem step_inv1 (s s' : summing.CellState)
    (h : s = ⟨[1], [], 0⟩ ∨ s = ⟨[], [(1, 0)], 0⟩ ∨ s = ⟨[], [], 1⟩)
    (hs : summing.CStep s s') :
    s' = ⟨[1], [], 0⟩ ∨ s' = ⟨[], [(1, 0)], 0⟩ ∨ s' = ⟨[], [], 1⟩ := by
  cases hs with
  | load l1 e l2 r c =>
    rcases h with h | h | h <;>
      simp only [summing.CellState.mk.injEq] at h <;>
      obtain ⟨h1, h2, h3⟩ := h
    · cases l1 with
      | nil =>
        simp only [List.nil_append, List.cons.injEq] at h1
        obtain ⟨he, hl2⟩ := h1
        subst he hl2 h2 h3
        simp
      | cons a as =>
        simp only [List.cons_append, List.cons.injEq] at h1
        exact absurd h1.2 (by simp)
    · exact absurd h1 (by simp)
    · exact absurd h1 (by simp)
  | store p r1 e v r2 c =>
    rcases h with h | h | h <;>
      simp only [summing.CellState.mk.injEq] at h <;>
      obtain ⟨h1, h2, h3⟩ := h
    · exact absurd h2 (by simp)
    · cases r1 with
      | nil =>
        simp only [List.nil_append, List.cons.injEq, Prod.mk.injEq] at h2
        obtain ⟨⟨he, hv⟩, hr2⟩ := h2
        subst he hv hr2 h1 h3
        simp
      | cons a as =>
        simp only [List.cons_append, List.cons.injEq] at h2
        exact absurd h2.2 (by simp)
    · exact absurd h2 (by simp)

theorem settled_one_unique (s : summing.CellState)
    (h : summing.Reach (summing.initCell (summing.submittedList [1])) s)
    (hs : summing.Settled s) : s.cell = 1 := by
  have h0 : summing.Reach ⟨[1], [], 0⟩ s := h
  have hinv := reach_pres step_inv1 h0 (Or.inl rfl)
  rcases hinv with h' | h' | h' <;> subst h'
  · exact absurd hs.1 (by simp)
  · exact absurd hs.2 (by simp)
  · rfl

/-- C1, counterexample: the spec claims `ChainedFutureReduce(S) ==
SequentialReduce(S)` for EVERY finite sequence, but on `S = [1, 0, 2]` the
chained reduction of `averaging.py` stops at the falsy element `0` and
returns `1`, while the sequential for-loop reduction returns `3`. -/
theorem C1_counterexample :
    averaging.get_average [1, 0, 2] = Except.ok 1 ∧
    for_loop_get_sum [1, 0, 2] = 3 ∧
    averaging.get_average [1, 0, 2] ≠ Except.ok (for_loop_get_sum [1, 0, 2]) := by
  refine ⟨rfl, rfl, ?_⟩
  intro h
  exact absurd (Except.ok.inj h) (by decide)

/-- C1, amended: for every NONEMPTY sequence with NO zero element, the
Chained-Future reduction of `averaging.py`, the sequential for-loop
reduction and the built-in reduction agree exactly. -/
theorem C1_reductions_agree (S : List Int) (hne : S ≠ [])
    (hz : ∀ x ∈ S, x ≠ 0) :
    averaging.get_average S = Except.ok (for_loop_get_sum S) ∧
    for_loop_get_sum S = builtin_sum S := by
  obtain ⟨x, xs, rfl⟩ : ∃ x xs, S = x :: xs := by
    cases S with
    | nil => exact absurd rfl hne
    | cons a as => exact ⟨a, as, rfl⟩
  refine ⟨?_, rfl⟩
  show Except.ok (averaging.chainFold x xs 0) = _
  rw [chainFold_eq_sum xs x 0 (hz x (by simp)) (fun y hy => hz y (by simp [hy])),
    zero_add]

/-- C1, witness: the amended theorem evaluated at `[1, 2, 3]` (the spec's
end-to-end scenario gives sum 15 on `[1,2,3,4,5]`; `[1,2,3]` gives 6). -/
theorem C1_witness :
    averaging.get_average [1, 2, 3] = Except.ok (for_loop_get_sum [1, 2, 3]) ∧
    for_loop_get_sum [1, 2, 3] = builtin_sum [1, 2, 3] :=
  C1_reductions_agree [1, 2, 3] (by decide) (by decide)

/-- C2, code evaluated at the failing input `[1, 0, 2]`: the source loops
`while next_elem:`, so the element `0` is conflated with exhaustion — only
the leading `[1]` is ever submitted, the chained reduction returns `1`, and
the elements `0` and `2` are never processed (sequential sum is `3`). -/
theorem C2_falsy_zero_stops_loop :
    summing.submittedList [1, 0, 2] = [1] ∧
    averaging.get_average [1, 0, 2] = Except.ok 1 ∧
    for_loop_get_sum [1, 0, 2] = 3 := ⟨rfl, rfl, rfl⟩

/-- C3, code evaluated at the failing schedule: `summing.py`'s `get_sum`
reads `dicter["current_sum"]` with no `pool.close()`/`pool.join()` first,
so on input `[1]` the value `0` is returnable while the single unit is
still in flight, even though every settled schedule ends with cell `1`. -/
theorem C3_returns_while_in_flight :
    summing.get_sum_may [1] (Except.ok 0) ∧
    (∀ s, summing.Reach (summing.initCell (summing.submittedList [1])) s →
      summing.Settled s → s.cell = 1) := by
  constructor
  · exact ⟨summing.initCell (summing.submittedList [1]), Relation.ReflTransGen.refl, rfl⟩
  · exact settled_one_unique

/-- C3, witness: the settled state `⟨[], [], 1⟩` is reachable on input `[1]`
and the uniqueness half of the theorem evaluates on it, while `0` remains a
returnable value. -/
theorem C3_witness :
    (⟨[], [], 1⟩ : summing.CellState).cell = 1 ∧
    summing.get_sum_may [1] (Except.ok 0) := by
  constructor
  · exact C3_returns_while_in_flight.2 ⟨[], [], 1⟩ (serial_reach [1] 0) ⟨rfl, rfl⟩
  · exact C3_returns_while_in_flight.1

/-- C4, code evaluated at the failing input: two jobs with distinct keys
`3` and `4`.  Every `get_sum` worker raises `NameError` (undefined name
`generate`), the fault is swallowed by the fire-and-forget submission, and
`get_sums` returns an EMPTY keyed store instead of one entry per key with
the sequential sums `6` and `10`. -/
theorem C4_coordinator_returns_empty_store :
    sos.get_sums [([1, 2, 3], 3), ([1, 2, 3, 4], 4)] = Except.ok [] ∧
    for_loop_get_sum [1, 2, 3] = 6 ∧ for_loop_get_sum [1, 2, 3, 4] = 10 :=
  ⟨rfl, rfl, rfl⟩

/-- C5, counterexample: the shared-cell job on `[1, 2]` can settle — every
unit completed, no faults — at cell value `2`, not the sequential sum `3`:
both units load `0`, then both store, and the `+1` update is lost. -/
theorem C5_counterexample :
    summing.Reach (summing.initCell (summing.submittedList [1, 2])) ⟨[], [], 2⟩ ∧
    summing.Settled ⟨[], [], 2⟩ ∧ (2 : Int) ≠ for_loop_get_sum [1, 2] :=
  ⟨lost_update_reach, ⟨rfl, rfl⟩, by decide⟩

/-- C5, amended: for every sequence the SERIALIZED schedule (each
read-modify-write applied atomically) settles at the sequential sum of the
submitted units — the maximal leading run of nonzero elements — but the
increment is a non-atomic read-modify-write, and interleaved schedules can
settle strictly below it: on `[1, 2]` the settled value `2 < 3` is reachable. -/
theorem C5_shared_cell :
    (∀ S : List Int,
      summing.Reach (summing.initCell (summing.submittedList S))
        ⟨[], [], for_loop_get_sum (summing.submittedList S)⟩ ∧
      summing.Settled ⟨[], [], for_loop_get_sum (summing.submittedList S)⟩) ∧
    (summing.Reach (summing.initCell (summing.submittedList [1, 2])) ⟨[], [], 2⟩ ∧
      summing.Settled ⟨[], [], 2⟩ ∧
      (2 : Int) < for_loop_get_sum (summing.submittedList [1, 2])) := by
  constructor
  · intro S
    exact ⟨serial_reach (summing.submittedList S) 0, rfl, rfl⟩
  · exact ⟨lost_update_reach, ⟨rfl, rfl⟩, by decide⟩

/-- C6, counterexample: the pool-based average variant `get_average` on the
empty sequence raises `StopIteration` (from the unguarded initial `next`),
not a division-by-zero class error. -/
theorem C6_counterexample :
    averaging.get_average ([] : List Int) = Except.error PyErr.stopIteration ∧
    PyErr.stopIteration ≠ PyErr.zeroDivision := ⟨rfl, by decide⟩

/-- C6, amended: the sequential for-loop average raises a division-by-zero
error on the empty sequence, fatal with no partial result; the pool-based
`get_average` instead raises `StopIteration` on the empty sequence. -/
theorem C6_empty_average :
    averaging.for_loop_get_average ([] : List Int) = Except.error PyErr.zeroDivision ∧
    averaging.get_average ([] : List Int) = Except.error PyErr.stopIteration :=
  ⟨rfl, rfl⟩

/-- C7: `get_average` never divides — for every nonempty zero-free sequence
it returns the plain sum, and whenever that sum is nonzero and the sequence
has more than one element this differs from `for_loop_get_average`'s
`float(sum)/len`. -/
theorem C7_get_average_never_divides (S : List Int) (hne : S ≠ [])
    (hz : ∀ x ∈ S, x ≠ 0) :
    averaging.get_average S = Except.ok (for_loop_get_sum S) ∧
    (for_loop_get_sum S ≠ 0 → 1 < S.length →
      averaging.for_loop_get_average S ≠ Except.ok ((for_loop_get_sum S : ℚ))) := by
  obtain ⟨x, xs, rfl⟩ : ∃ x xs, S = x :: xs := by
    cases S with
    | nil => exact absurd rfl hne
    | cons a as => exact ⟨a, as, rfl⟩
  constructor
  · show Except.ok (averaging.chainFold x xs 0) = _
    rw [chainFold_eq_sum xs x 0 (hz x (by simp)) (fun y hy => hz y (by simp [hy])),
      zero_add]
  · intro hsum hlen
    have hlen0 : (x :: xs).length ≠ 0 := by simp
    simp only [averaging.for_loop_get_average]
    rw [if_neg hlen0]
    intro hcontra
    have heq := Except.ok.inj hcontra
    have hq : (for_loop_get_sum (x :: xs) : ℚ) ≠ 0 := Int.cast_ne_zero.mpr hsum
    have hn : (((x :: xs).length : Nat) : ℚ) ≠ 0 := Nat.cast_ne_zero.mpr hlen0
    have h1 := (div_eq_iff hn).mp heq
    have h2 : (for_loop_get_sum (x :: xs) : ℚ) * 1
        = (for_loop_get_sum (x :: xs) : ℚ) * (((x :: xs).length : Nat) : ℚ) := by
      rw [mul_one]; exact h1
    have h3 := mul_left_cancel₀ hq h2
    have h4 : (x :: xs).length = 1 := by exact_mod_cast h3.symm
    omega

/-- C7, witness: on `[1, 2]` the pool version returns the sum `3` while the
for-loop average is `3/2 ≠ 3`. -/
theorem C7_witness :
    averaging.get_average [1, 2] = Except.ok (for_loop_get_sum [1, 2]) ∧
    averaging.for_loop_get_average [1, 2] ≠ Except.ok ((for_loop_get_sum [1, 2] : ℚ)) :=
  ⟨(C7_get_average_never_divides [1, 2] (by decide) (by decide)).1,
   (C7_get_average_never_divides [1, 2] (by decide) (by decide)).2 (by decide) (by decide)⟩

/-- C8, code evaluated at the failing input: two jobs sharing key `3`.
Because every `get_sum` worker raises `NameError` (undefined name
`generate`) and the fault is swallowed, the returned store has ZERO entries
for the colliding key, not one entry holding some job's result. -/
theorem C8_collision_returns_empty_store :
    sos.get_sums [([1, 2, 3], 3), ([4, 2], 3)] = Except.ok [] ∧
    for_loop_get_sum [1, 2, 3] = 6 ∧ for_loop_get_sum [4, 2] = 6 :=
  ⟨rfl, rfl, rfl⟩

/-- C9: both average-variant reducers return exactly the element of a
single-element sequence — the for-loop average computes `v/1 = v` and the
chained pool version returns the sum `v` (also when `v = 0`: the falsy
check skips the loop but the accumulator already holds `0 = v`). -/
theorem C9_single_element (v : Int) :
    averaging.for_loop_get_average [v] = Except.ok (v : ℚ) ∧
    averaging.get_average [v] = Except.ok v := by
  constructor
  · simp only [averaging.for_loop_get_average]
    rw [if_neg (by simp)]
    norm_num [for_loop_get_sum]
  · show Except.ok (averaging.chainFold v [] 0) = _
    rcases eq_or_ne v 0 with h | h <;>
      simp [averaging.chainFold, averaging.summation, h]

/-- C10, counterexample: the pool-based reducer of `summing_on_summing.py`
does NOT raise `StopIteration` from the first producer call on empty input —
it raises `NameError` (undefined name `generate`) before reaching the
initial `next`. -/
theorem C10_counterexample :
    sos.get_sum [] [] 0 = Except.error PyErr.nameError ∧
    PyErr.nameError ≠ PyErr.stopIteration := ⟨rfl, by decide⟩

/-- C10, amended: on the empty sequence `summing.py`'s `get_sum` and
`averaging.py`'s `get_average` raise an unhandled `StopIteration` from the
unguarded initial `next` (and nothing else is returnable), while
`summing_on_summing.py`'s `get_sum` raises `NameError` on every input,
empty included, before its initial `next`. -/
theorem C10_empty_input :
    summing.get_sum_may [] (Except.error PyErr.stopIteration) ∧
    (∀ r, summing.get_sum_may [] r → r = Except.error PyErr.stopIteration) ∧
    averaging.get_average ([] : List Int) = Except.error PyErr.stopIteration ∧
    (∀ (l : List Int) (d : List (Nat × Int)) (k : Nat),
      sos.get_sum l d k = Except.error PyErr.nameError) :=
  ⟨rfl, fun _ h => h, rfl, fun _ _ _ => rfl⟩

/-- C10, witness: the uniqueness conjunct applied at the concrete returned
value, and the `NameError` conjunct applied at a concrete nonempty call. -/
theorem C10_witness :
    (Except.error PyErr.stopIteration : Except PyErr Int) = Except.error PyErr.stopIteration ∧
    sos.get_sum [3] [(1, 1)] 7 = Except.error PyErr.nameError :=
  ⟨C10_empty_input.2.1 (Except.error PyErr.stopIteration) rfl,
   C10_empty_input.2.2.2 [3] [(1, 1)] 7⟩

/-- C5, witness: the serialized-schedule conjunct evaluated at `[5, 7]`. -/
theorem C5_witness :
    summing.Reach (summing.initCell (summing.submittedList [5, 7]))
      ⟨[], [], for_loop_get_sum (summing.submittedList [5, 7])⟩ :=
  (C5_shared_cell.1 [5, 7]).1

/-- C9, witness: the single-element property evaluated at `v = 5`. -/
theorem C9_witness :
    averaging.for_loop_get_average [5] = Except.ok ((5 : Int) : ℚ) ∧
    averaging.get_average [5] = Except.ok 5 :=
  C9_single_element 5
